import Mathlib

/-!
Shallow embedding of the LLM card-generation subsystem of the
Obsidian-to-Anki plugin (src/llm): the document chunker, the multi-pass
card generator, the LLM router with retry/fallback, the OpenAI-compatible
provider's error classification, and the prompt manager.

JavaScript strings are modelled as `List Char`; the numeric scores that the
code computes with JS numbers are modelled as `ℚ` (all the constants
involved are exact decimals and the properties under study are robust
order/equality facts about those decimals).
-/

set_option maxRecDepth 20000

namespace Anki

/-- JS strings, modelled as lists of characters. -/
abbrev Str := List Char

/-- Coerce a Lean string literal into the model's string type. -/
def str (s : String) : Str := s.toList

/-- The whitespace class used for `\s`, `trim` and heading matching
(ASCII whitespace; the document lines at issue contain no exotic
Unicode spaces). -/
def isWsChar (c : Char) : Bool :=
  c == ' ' || c == '\t' || c == '\n' || c == '\r' || c == '\x0b' || c == '\x0c'

/-- `String.prototype.trim`: strip leading and trailing whitespace. -/
def trimStr (l : Str) : Str :=
  ((l.dropWhile isWsChar).reverse.dropWhile isWsChar).reverse

/-- `lines.join('\n')`. -/
def joinLines (ls : List Str) : Str := List.intercalate [ '\n' ] ls

/-- `content.split('\n')`: split on every newline, keeping empty parts;
the result is never the empty list (`"".split('\n')` is `[""]`). -/
def splitLines : Str → List Str
  | [] => [[]]
  | c :: rest =>
    if c = '\n' then [] :: splitLines rest
    else
      match splitLines rest with
      | l :: ls => (c :: l) :: ls
      | [] => [[c]]

/-- `estimateTokens`: `Math.ceil(text.length / 4)`. -/
def estimateTokens (content : Str) : Nat := (content.length + 3) / 4

/-- `x || default` on an optional JS number: `undefined` and `0` are falsy. -/
def jsOrNat (o : Option Nat) (d : Nat) : Nat :=
  match o with
  | some v => if v = 0 then d else v
  | none => d

/-- `'s'.repeat(count)`: JS throws a RangeError on a negative count,
modelled as `none`. -/
def jsRepeat (s : Str) (count : Int) : Option Str :=
  if count < 0 then none else some (List.flatten (List.replicate count.toNat s))

/-! ## Document chunker (src/llm/chunking/document-chunker.ts) -/

/-- `ChunkingOptions` (the two fields `chunkDocument` reads; the other
optional fields of the interface are never used by the implementation). -/
structure ChunkingOptions where
  maxTokens : Option Nat := none
  minTokens : Option Nat := none
deriving DecidableEq

/-- `DocumentChunk`, with its metadata flattened into the structure. -/
structure DocumentChunk where
  id : Str
  content : Str
  index : Nat
  level : Nat
  heading : Str
  tokenCount : Nat
  importance : ℚ
  keywords : List Str
  startLine : Nat
  endLine : Nat
deriving DecidableEq

/-- `line.match(/^(#{1,6})\s+(.+)$/)`: 1–6 leading `#`, then at least one
whitespace character, then a non-empty remainder.  The heading the code
keeps is capture 2 trimmed, which equals the remainder after the hashes,
trimmed. -/
def headingMatch (line : Str) : Option (Nat × Str) :=
  let j := (line.takeWhile (· == '#')).length
  let rest := line.drop j
  if 1 ≤ j ∧ j ≤ 6 ∧ 2 ≤ rest.length ∧ isWsChar (rest.headD 'x') = true then
    some (j, trimStr rest)
  else
    none

/-- `/[.!?]\s*$/`: the last non-whitespace character ends a sentence. -/
def endsSentence (l : Str) : Bool :=
  match l.reverse.dropWhile isWsChar with
  | c :: _ => c == '.' || c == '!' || c == '?'
  | [] => false

/-- The indices visited by `for (let i = n-1; i > n/2; i--)`, in visiting
order (descending; `n/2` is JS float division, so the condition is `2i > n`). -/
def descIndices (n : Nat) : List Nat :=
  ((List.range n).filter (fun i => n < 2 * i)).reverse

/-- `findSplitPoint`: a blank line in the upper half (searched backwards),
else one past a sentence-ending line there, else `Math.floor(length * 0.75)`. -/
def findSplitPoint (ls : List Str) : Nat :=
  match (descIndices ls.length).find? (fun i => trimStr (ls.getD i []) == []) with
  | some i => i
  | none =>
    match (descIndices ls.length).find? (fun i => endsSentence (ls.getD i [])) with
    | some i => i + 1
    | none => 3 * ls.length / 4

/-- Which branch of `chunkDocument` emitted a chunk. -/
inductive ChunkSource where
  | headingFlush
  | split
  | finalFlush
deriving DecidableEq

/-- One step of `chunkDocument`'s output, instrumented: either an emitted
chunk (with the block of lines it was built from) or a buffer the code
discarded without emitting (undersized at a heading, or undersized at end
of input). -/
inductive ChunkPiece where
  | emitted (src : ChunkSource) (block : List Str) (c : DocumentChunk)
  | droppedAtHeading (block : List Str)
  | droppedAtEnd (block : List Str)
deriving DecidableEq

/-- The block of input lines a piece covers. -/
def ChunkPiece.block : ChunkPiece → List Str
  | .emitted _ b _ => b
  | .droppedAtHeading b => b
  | .droppedAtEnd b => b

/-- The chunk a piece emits, if any. -/
def ChunkPiece.chunkOf : ChunkPiece → Option DocumentChunk
  | .emitted _ _ c => some c
  | .droppedAtHeading _ => none
  | .droppedAtEnd _ => none

/-- Build the chunk object the code pushes.  `importanceOf` and
`keywordsOf` stand for `calculateImportance`/`extractKeywords`: per-chunk
annotations computed from the chunk's text by regular-expression scans that
never influence chunk boundaries (the importance formula itself is modelled
separately as `calculateImportance` over its match signals). -/
def mkChunk (importanceOf : Str → Nat → ℚ) (keywordsOf : Str → List Str)
    (idx level : Nat) (heading : Str) (block : List Str) (startL endL : Nat) :
    DocumentChunk :=
  let content := joinLines block
  { id := str "chunk-" ++ (Nat.repr idx).toList
    content := content
    index := idx
    level := level
    heading := heading
    tokenCount := estimateTokens content
    importance := importanceOf content level
    keywords := keywordsOf content
    startLine := startL
    endLine := endL }

/-- The loop state of `chunkDocument`. -/
structure ChunkState where
  buffer : List Str
  heading : Str
  level : Nat
  idx : Nat
  startLine : Nat

/-- The line loop of `chunkDocument` (lines 55–154 of the source), one
constructor of `ChunkPiece` per push/discard the code performs.  `nTotal`
is the total number of lines (for the final chunk's `endLine`), `i` the
current line number. -/
def chunkLoop (imp : Str → Nat → ℚ) (kw : Str → List Str)
    (maxT minT nTotal : Nat) : List Str → Nat → ChunkState → List ChunkPiece
  | [], _, st =>
    -- Add final chunk: `if (tokenCount >= minTokens / 2)`
    if st.buffer.isEmpty then []
    else
      let tc := estimateTokens (joinLines st.buffer)
      if minT ≤ 2 * tc then
        [.emitted .finalFlush st.buffer
          (mkChunk imp kw st.idx st.level st.heading st.buffer st.startLine (nTotal - 1))]
      else
        [.droppedAtEnd st.buffer]
  | line :: rest, i, st =>
    match headingMatch line with
    | some (lvl, title) =>
      -- heading line: flush the buffer if `tokenCount >= minTokens`,
      -- otherwise the buffer is discarded (`currentChunk = []` runs either way)
      if st.buffer.isEmpty then
        chunkLoop imp kw maxT minT nTotal rest (i + 1)
          { buffer := [line], heading := title, level := lvl
            idx := st.idx, startLine := st.startLine }
      else
        let tc := estimateTokens (joinLines st.buffer)
        if minT ≤ tc then
          .emitted .headingFlush st.buffer
              (mkChunk imp kw st.idx st.level st.heading st.buffer st.startLine (i - 1)) ::
            chunkLoop imp kw maxT minT nTotal rest (i + 1)
              { buffer := [line], heading := title, level := lvl
                idx := st.idx + 1, startLine := i }
        else
          .droppedAtHeading st.buffer ::
            chunkLoop imp kw maxT minT nTotal rest (i + 1)
              { buffer := [line], heading := title, level := lvl
                idx := st.idx, startLine := i }
    | none =>
      -- ordinary line: append, then split once the estimate reaches maxTokens
      let buf := st.buffer ++ [line]
      let tc := estimateTokens (joinLines buf)
      if maxT ≤ tc then
        let sp := findSplitPoint buf
        if 0 < sp then
          let before := buf.take sp
          .emitted .split before
              (mkChunk imp kw st.idx st.level st.heading before st.startLine
                (st.startLine + sp - 1)) ::
            chunkLoop imp kw maxT minT nTotal rest (i + 1)
              { buffer := buf.drop sp, heading := st.heading, level := st.level
                idx := st.idx + 1, startLine := st.startLine + sp }
        else
          chunkLoop imp kw maxT minT nTotal rest (i + 1) { st with buffer := buf }
      else
        chunkLoop imp kw maxT minT nTotal rest (i + 1) { st with buffer := buf }

/-- `chunkDocument`, instrumented with the discarded buffers. -/
def chunkPieces (imp : Str → Nat → ℚ) (kw : Str → List Str)
    (text : Str) (opts : ChunkingOptions) : List ChunkPiece :=
  let maxT := jsOrNat opts.maxTokens 1500
  let minT := jsOrNat opts.minTokens 200
  let lines := splitLines text
  chunkLoop imp kw maxT minT lines.length lines 0
    { buffer := [], heading := str "Introduction", level := 0, idx := 0, startLine := 0 }

/-- `chunkDocument`: the chunks actually returned (the emitted pieces). -/
def chunkDocument (imp : Str → Nat → ℚ) (kw : Str → List Str)
    (text : Str) (opts : ChunkingOptions) : List DocumentChunk :=
  (chunkPieces imp kw text opts).filterMap ChunkPiece.chunkOf

/-- `createOverview`: `'  '.repeat(chunk.metadata.level - 1)` throws a
RangeError for a level-0 chunk (the "Introduction" sentinel), modelled as
`none`. -/
def createOverview (chunks : List DocumentChunk) : Option Str :=
  ((chunks.filter (fun c => c.level ≤ 2)).mapM (fun c =>
      (jsRepeat (str "  ") ((c.level : Int) - 1)).map
        (fun indent => indent ++ str "- " ++ c.heading))).map
    (fun headings => str "Document Structure:" ++ [ '\n' ] ++ joinLines headings)

/-! ## Importance scoring (`calculateImportance`) -/

/-- The regular-expression match results `calculateImportance` extracts
from a chunk's text: a definition pattern, a list marker, a fenced code
block, the number of emphasis spans, and which of the 9 entries of
`importantKeywords` the lower-cased text contains. -/
structure ContentSignals where
  hasDefinition : Bool
  hasList : Bool
  hasCodeBlock : Bool
  emphasisCount : Nat
  importantKeywordHit : Fin 9 → Bool

/-- How many of the 9 important keywords matched (the loop adds 0.05 per
matching keyword). -/
def keywordHitCount (sig : ContentSignals) : Nat :=
  (List.finRange 9).countP (fun i => sig.importantKeywordHit i)

/-- `calculateImportance(content, level)`, over the match signals of the
content: base 0.5, heading-level bonus, feature bonuses, capped emphasis
bonus, 0.05 per keyword hit, clamped above by 1.0. -/
def calculateImportance (sig : ContentSignals) (level : Nat) : ℚ :=
  min
    (0.5 + ((6 : ℚ) - (level : ℚ)) * 0.05
      + (if sig.hasDefinition then 0.15 else 0)
      + (if sig.hasList then 0.1 else 0)
      + (if sig.hasCodeBlock then 0.1 else 0)
      + min ((sig.emphasisCount : ℚ) * 0.02) 0.1
      + (keywordHitCount sig : ℚ) * 0.05)
    1.0

/-! ## Generated cards, response parsing and batch quality
(src/llm/generation/multi-pass-generator.ts) -/

/-- `GeneratedCard` (interfaces/prompt-template.interface.ts). -/
structure GeneratedCard where
  type : Str
  front : Str
  back : Str
  tags : List Str
  confidence : Option ℚ
deriving DecidableEq

/-- One card object of the decoded JSON payload: each field is `none` when
the property is absent from the object. -/
structure RawCard where
  type : Option Str
  front : Option Str
  back : Option Str
  tags : Option (List Str)
  confidence : Option ℚ
deriving DecidableEq

/-- The decoded JSON payload of a card-generation response. -/
structure RawCardResponse where
  cards : Option (List RawCard)
  sectionSummary : Option Str
deriving DecidableEq

/-- The card mapper inside `parseCardResponse`:
`{type: card.type || 'basic', front: card.front || '', ..., confidence:
card.confidence || 0.8, ...card}` — the trailing spread `...card` restores
every property present on the raw object, so the defaults apply exactly to
the absent properties (a present `confidence: 0` survives the spread). -/
def parsedCard (c : RawCard) : GeneratedCard :=
  { type := c.type.getD (str "basic")
    front := c.front.getD []
    back := c.back.getD []
    tags := c.tags.getD []
    confidence := some (c.confidence.getD 0.8) }

/-- `parseCardResponse`: `none` models a JSON.parse failure (the catch
returns no cards and an empty summary); otherwise map the raw cards with
defaulting and take `parsed.sectionSummary || ''`. -/
def parseCardResponse (input : Option RawCardResponse) : List GeneratedCard × Str :=
  match input with
  | none => ([], [])
  | some r => ((r.cards.getD []).map parsedCard, r.sectionSummary.getD [])

/-- `card.confidence || 0.8` on a JS number: both `undefined` and `0` are
falsy and yield the 0.8 default. -/
def jsConfidenceOr (o : Option ℚ) : ℚ :=
  match o with
  | some c => if c = 0 then 0.8 else c
  | none => 0.8

/-- `calculateBatchQuality`: 0 for no cards, else the `reduce`-average of
`card.confidence || 0.8` times a count penalty (0.8 below 2 cards, 0.9
above 10, else 1.0). -/
def calculateBatchQuality (cards : List GeneratedCard) : ℚ :=
  if cards.isEmpty then 0
  else
    let avgConfidence :=
      (cards.foldl (fun sum card => sum + jsConfidenceOr card.confidence) 0)
        / (cards.length : ℚ)
    let countPenalty : ℚ :=
      if cards.length < 2 then 0.8 else if 10 < cards.length then 0.9 else 1.0
    avgConfidence * countPenalty

/-! ## Error taxonomy and router (src/llm/llm-error.ts, src/llm/llm-router.ts) -/

/-- `LLMErrorType`. -/
inductive LLMErrorType where
  | providerUnavailable
  | apiError
  | timeout
  | parseError
  | rateLimit
  | invalidConfig
  | networkError
  | authenticationError
deriving DecidableEq

/-- `LLMError` (the `originalError` cause is carried as its message). -/
structure LLMError where
  message : Str
  type : LLMErrorType
  retryable : Bool
  provider : Option Str
  originalError : Option Str := none
deriving DecidableEq

/-- `usage` of an `LLMResponse`. -/
structure LLMUsage where
  promptTokens : Nat
  completionTokens : Nat
  totalTokens : Nat
deriving DecidableEq

/-- `LLMResponse`. -/
structure LLMResponse where
  content : Str
  usage : Option LLMUsage
  model : Str
  finishReason : Str
deriving DecidableEq

/-- What one `generateCompletion()` call can throw: a classified
`LLMError`, or a value that is not an `LLMError` (a foreign exception). -/
inductive ThrownError where
  | llm (e : LLMError)
  | foreign (message : Str)
deriving DecidableEq

/-- A provider as the router observes it: the `isAvailable()` answer (the
interface contract says it never throws) and the outcome of the n-th
`generateCompletion` call within one retry loop. -/
structure ProviderModel where
  available : Bool
  gen : Nat → Except ThrownError LLMResponse

/-- What one run of `generateWithRetry` did: its outcome (`.error none`
models `throw lastError` with `lastError` still `null`, possible only for
`retryAttempts = 0`), how many `generateCompletion` calls it made, and the
backoff delays it waited, in order. -/
structure RetryTrace where
  result : Except (Option ThrownError) LLMResponse
  calls : Nat
  delays : List Nat

/-- The attempt loop of `generateWithRetry`, by remaining attempts:
a success returns; a non-retryable `LLMError` or a foreign error is
rethrown at once; a retryable `LLMError` waits `retryDelay * 2^attempt`
(when another attempt remains) and retries; an exhausted loop throws the
last error. -/
def retryAux (gen : Nat → Except ThrownError LLMResponse) (retryDelay : Nat) :
    Nat → Nat → Option ThrownError → RetryTrace
  | 0, _, last => { result := .error last, calls := 0, delays := [] }
  | attemptsLeft + 1, attempt, _ =>
    match gen attempt with
    | .ok r => { result := .ok r, calls := 1, delays := [] }
    | .error e =>
      match e with
      | .llm le =>
        if le.retryable then
          let waits := if 0 < attemptsLeft then [retryDelay * 2 ^ attempt] else []
          let rest := retryAux gen retryDelay attemptsLeft (attempt + 1) (some e)
          { result := rest.result, calls := 1 + rest.calls, delays := waits ++ rest.delays }
        else
          { result := .error (some e), calls := 1, delays := [] }
      | .foreign _ => { result := .error (some e), calls := 1, delays := [] }

/-- `generateWithRetry(provider, messages)`. -/
def generateWithRetry (gen : Nat → Except ThrownError LLMResponse)
    (retryAttempts retryDelay : Nat) : RetryTrace :=
  retryAux gen retryDelay retryAttempts 0 none

/-- The router's state: registry in registration order, default provider,
fallback chain, retry configuration. -/
structure LLMRouterState where
  providers : List (Str × ProviderModel)
  defaultProvider : Option Str
  fallbackProviders : List Str
  retryAttempts : Nat
  retryDelay : Nat

/-- `providers.get(name)` on the registry `Map`. -/
def lookupProvider (ps : List (Str × ProviderModel)) (name : Str) : Option ProviderModel :=
  (ps.find? (fun p => p.1 == name)).map (fun p => p.2)

/-- A JS string in boolean position: the empty string is falsy. -/
def jsTruthyStr (s : Str) : Bool := !s.isEmpty

/-- `buildProviderChain(preferred?)`: preferred (if registered), then the
default, then the fallback providers, keeping the first occurrence only. -/
def buildProviderChain (s : LLMRouterState) (preferred : Option Str) : List Str :=
  let chain0 :=
    match preferred with
    | some p => if jsTruthyStr p && (lookupProvider s.providers p).isSome then [p] else []
    | none => []
  let chain1 :=
    match s.defaultProvider with
    | some d => if jsTruthyStr d && !chain0.contains d then chain0 ++ [d] else chain0
    | none => chain0
  s.fallbackProviders.foldl
    (fun chain f => if chain.contains f then chain else chain ++ [f]) chain1

/-- How `generate` ends when no provider succeeds: with a raised
`LLMError`, or crashed (a `TypeError` from reading `.message` of the
`null` that `generateWithRetry` throws when `retryAttempts = 0`). -/
inductive GenFailure where
  | err (e : LLMError)
  | crashed
deriving DecidableEq

/-- What one `generate` run did: its outcome and, in chain order, the
providers the candidate loop reached (their `isAvailable`, and for the
available ones `generateCompletion`, were invoked). -/
structure GenTrace where
  result : Except GenFailure LLMResponse
  touched : List Str

/-- The `provider-unavailable` error recorded for a skipped candidate. -/
def unavailableError (name : Str) : LLMError :=
  { message := str "Provider " ++ name ++ str " is not available"
    type := .providerUnavailable, retryable := true, provider := some name }

/-- The wrapper for a non-`LLMError` exception escaping a candidate. -/
def wrapForeign (name msg : Str) : LLMError :=
  { message := str "Unexpected error with provider " ++ name ++ str ": " ++ msg
    type := .apiError, retryable := false, provider := some name
    originalError := some msg }

/-- The generic error when every candidate failed without recording one. -/
def allFailedError : LLMError :=
  { message := str "All LLM providers failed"
    type := .providerUnavailable, retryable := false, provider := none }

/-- The candidate loop of `generate`: skip unregistered names, record and
skip unavailable providers, return the first retry-loop success, remember
the last error otherwise. -/
def genLoop (s : LLMRouterState) : List Str → Option LLMError → GenTrace
  | [], last => { result := .error (.err (last.getD allFailedError)), touched := [] }
  | name :: rest, last =>
    match lookupProvider s.providers name with
    | none => genLoop s rest last
    | some p =>
      if p.available then
        match (generateWithRetry p.gen s.retryAttempts s.retryDelay).result with
        | .ok r => { result := .ok r, touched := [name] }
        | .error (some (.llm e)) =>
          let t := genLoop s rest (some e)
          { result := t.result, touched := name :: t.touched }
        | .error (some (.foreign m)) =>
          let t := genLoop s rest (some (wrapForeign name m))
          { result := t.result, touched := name :: t.touched }
        | .error none => { result := .error .crashed, touched := [name] }
      else
        let t := genLoop s rest (some (unavailableError name))
        { result := t.result, touched := name :: t.touched }

/-- The error raised when the chain is empty. -/
def noProvidersError : LLMError :=
  { message := str "No LLM providers available"
    type := .providerUnavailable, retryable := false, provider := none }

/-- `LLMRouter.generate(messages, preferred?)`. -/
def generate (s : LLMRouterState) (preferred : Option Str) : GenTrace :=
  let chain := buildProviderChain s preferred
  if chain.isEmpty then { result := .error (.err noProvidersError), touched := [] }
  else genLoop s chain none

/-! ## OpenAI-compatible provider (src/llm/providers/openai-compatible-provider.ts) -/

/-- The configuration fields `generateCompletion`/`parseResponse` read. -/
structure ProviderConfig where
  provider : Str
  model : Str
deriving DecidableEq

/-- `choices[0].message` of the wire payload. -/
structure ChatMessagePayload where
  content : Str
deriving DecidableEq

/-- One entry of `choices`; `message` and `finish_reason` may be absent. -/
structure ChoicePayload where
  message : Option ChatMessagePayload
  finishReason : Option Str
deriving DecidableEq

/-- `usage` of the wire payload; each counter may be absent. -/
structure UsagePayload where
  promptTokens : Option Nat
  completionTokens : Option Nat
  totalTokens : Option Nat
deriving DecidableEq

/-- The decoded JSON body of a 200 response; `choices`, `usage` and
`model` may be absent. -/
structure ResponsePayload where
  choices : Option (List ChoicePayload)
  usage : Option UsagePayload
  model : Option Str
deriving DecidableEq

/-- `a || b` on an optional JS string: absent and `""` are falsy. -/
def jsOrStr (o : Option Str) (d : Str) : Str :=
  match o with
  | some s => if s.isEmpty then d else s
  | none => d

/-- The outcome of the single HTTP POST of `generateCompletion`
(`requestUrl` with `throw: false`): a status with a decoded body, or a
connection failure. -/
inductive HttpOutcome where
  | response (status : Nat) (data : ResponsePayload)
  | connectionFailure (message : Str)
deriving DecidableEq

/-- `parseResponse(data)`: raises parse-error (non-retryable) when
`choices[0].message` is missing, else builds the normalized response with
`|| 0` / `|| this.config.model` / `|| 'stop'` defaults. -/
def parseResponse (cfg : ProviderConfig) (data : ResponsePayload) :
    Except LLMError LLMResponse :=
  match data.choices with
  | none =>
    .error { message := str "Failed to parse response: Invalid response format: missing choices or message"
             type := .parseError, retryable := false, provider := some cfg.provider }
  | some [] =>
    .error { message := str "Failed to parse response: Invalid response format: missing choices or message"
             type := .parseError, retryable := false, provider := some cfg.provider }
  | some (choice :: _) =>
    match choice.message with
    | none =>
      .error { message := str "Failed to parse response: Invalid response format: missing choices or message"
               type := .parseError, retryable := false, provider := some cfg.provider }
    | some msg =>
      .ok { content := msg.content
            usage := some
              { promptTokens := ((data.usage.map UsagePayload.promptTokens).join).getD 0
                completionTokens := ((data.usage.map UsagePayload.completionTokens).join).getD 0
                totalTokens := ((data.usage.map UsagePayload.totalTokens).join).getD 0 }
            model := jsOrStr data.model cfg.model
            finishReason := jsOrStr choice.finishReason (str "stop") }

/-- The observable outcome of one `generateCompletion(messages)` call on an
initialized provider, by HTTP outcome: the error classification of
lines 78–127 plus `parseResponse` on a 200 body, with a connection failure
wrapped as a retryable network error. -/
def generateCompletionOutcome (cfg : ProviderConfig) (outcome : HttpOutcome) :
    Except LLMError LLMResponse :=
  match outcome with
  | .connectionFailure m =>
    .error { message := str "Failed to generate completion: " ++ m
             type := .networkError, retryable := true, provider := some cfg.provider
             originalError := some m }
  | .response status data =>
    if status ≠ 200 then
      if status = 401 ∨ status = 403 then
        .error { message := str "Authentication failed"
                 type := .authenticationError, retryable := false
                 provider := some cfg.provider }
      else if status = 429 then
        .error { message := str "Rate limit exceeded"
                 type := .rateLimit, retryable := true, provider := some cfg.provider }
      else if 500 ≤ status then
        .error { message := str "Server error"
                 type := .apiError, retryable := true, provider := some cfg.provider }
      else
        .error { message := str "API error"
                 type := .apiError, retryable := false, provider := some cfg.provider }
    else
      parseResponse cfg data

/-! ## Prompt manager (src/llm/prompt-manager.ts) -/

/-- Message roles. -/
inductive MessageRole where
  | system
  | user
  | assistant
deriving DecidableEq

/-- `LLMMessage`. -/
structure LLMMessage where
  role : MessageRole
  content : Str
deriving DecidableEq

/-- `PromptTemplate` (`requiredVariables` models the source field
`variables`, a reserved word in Lean). -/
structure PromptTemplate where
  name : Str
  description : Str
  systemPrompt : Str
  userPromptTemplate : Str
  requiredVariables : List Str
deriving DecidableEq

/-- `templates.get(name)` on the template `Map`. -/
def lookupTemplate (ts : List (Str × PromptTemplate)) (name : Str) :
    Option PromptTemplate :=
  (ts.find? (fun t => t.1 == name)).map (fun t => t.2)

/-- `varName in variables` on the variables record. -/
def lookupVar (vars : List (Str × Str)) (k : Str) : Option Str :=
  (vars.find? (fun v => v.1 == k)).map (fun v => v.2)

/-- Replace every (non-overlapping, left-to-right) occurrence of `pat` in
`s` by `repl` — `userPrompt.replace(new RegExp(pattern, 'g'), value)` for a
literal pattern. -/
def replaceAll : Str → Str → Str → Str
  | [], _, _ => []
  | c :: rest, pat, repl =>
    if h : pat ≠ [] ∧ pat.isPrefixOf (c :: rest) then
      repl ++ replaceAll ((c :: rest).drop pat.length) pat repl
    else
      c :: replaceAll rest pat repl
termination_by s _ _ => s.length
decreasing_by
  · simp only [List.length_drop, List.length_cons]
    have : 1 ≤ pat.length := List.length_pos.mpr h.1
    omega
  · simp

/-- The substitution loop of `renderPrompt`: for every provided variable,
in entry order, replace each `{{key}}` occurrence by the value
(`value || ''` leaves an empty value empty). -/
def substituteVars (userTemplate : Str) (vars : List (Str × Str)) : Str :=
  vars.foldl
    (fun acc kv => replaceAll acc (str "\x7b\x7b" ++ kv.1 ++ str "\x7d\x7d") kv.2)
    userTemplate

/-- `renderPrompt(templateName, variables)`: unknown template or a missing
required variable throws; otherwise a system message with the template's
system prompt and a user message with the substituted user template. -/
def renderPrompt (templates : List (Str × PromptTemplate)) (templateName : Str)
    (vars : List (Str × Str)) : Except Str (List LLMMessage) :=
  match lookupTemplate templates templateName with
  | none => .error (str "Template " ++ templateName ++ str " not found")
  | some t =>
    match t.requiredVariables.find? (fun v => (lookupVar vars v).isNone) with
    | some v => .error (str "Missing required variable: " ++ v)
    | none =>
      .ok [ { role := .system, content := t.systemPrompt },
            { role := .user, content := substituteVars t.userPromptTemplate vars } ]

/-! ## Multi-pass card generator (src/llm/generation/multi-pass-generator.ts) -/

/-- One section of a `DocumentPlan`. -/
structure PlanSection where
  heading : Str
  importance : ℚ
  estimatedCards : Nat
  difficulty : ℚ
deriving DecidableEq

/-- `DocumentPlan`. -/
structure DocumentPlan where
  overview : Str
  mainTopics : List Str
  sections : List PlanSection
  totalEstimatedCards : Nat
deriving DecidableEq

/-- The default plan `analyzeDocument` substitutes on any failure. -/
def defaultPlan : DocumentPlan :=
  { overview := str "Document analysis", mainTopics := [], sections := []
    totalEstimatedCards := 10 }

/-- `analyzeDocument(content)`: render + dispatch + parse, with every
failure caught and replaced by the default plan.  `planOutcome` abstracts
the try-block's outcome (the rendered prompt, the router dispatch and the
tolerant JSON parse). -/
def analyzeDocument (planOutcome : Except LLMError DocumentPlan) : DocumentPlan :=
  match planOutcome with
  | .ok p => p
  | .error _ => defaultPlan

/-- Phases of `GenerationProgress`. -/
inductive GenerationPhase where
  | planning
  | analyzing
  | generating
  | validating
  | completed
deriving DecidableEq

/-- `GenerationProgress`. -/
structure GenerationProgress where
  phase : GenerationPhase
  currentChunk : Option Nat
  totalChunks : Option Nat
  cardsGenerated : Nat
  message : Str
deriving DecidableEq

/-- `CardBatch`. -/
structure CardBatch where
  chunkId : Str
  heading : Str
  cards : List GeneratedCard
  summary : Str
  quality : ℚ
deriving DecidableEq

/-- One item of the async generator's stream. -/
inductive StreamItem where
  | progress (p : GenerationProgress)
  | batch (b : CardBatch)
deriving DecidableEq

/-- How a started run can die instead of completing: the RangeError that
`'  '.repeat(level - 1)` raises in `createOverview` for a level-0 chunk. -/
inductive RunFailure where
  | rangeError
deriving DecidableEq

/-- Stable insertion of a chunk into a list sorted by descending
importance: inserted after every chunk of equal or higher importance. -/
def insertByImportance (c : DocumentChunk) : List DocumentChunk → List DocumentChunk
  | [] => [c]
  | d :: ds =>
    if d.importance < c.importance then c :: d :: ds
    else d :: insertByImportance c ds

/-- `prioritizeChunks`: the in-place stable `Array.prototype.sort` with
comparator `b.importance - a.importance` (descending importance, document
order preserved on ties). -/
def prioritizeChunks : List DocumentChunk → List DocumentChunk
  | [] => []
  | c :: cs => insertByImportance c (prioritizeChunks cs)

/-- The chunk loop of pass 3 (lines 230–265): while chunks remain and the
card budget is not reached, yield a `generating` event, run
`generateCardsForChunk` (its render + dispatch + parse abstracted by
`chunkOutcome i previousSummary`; an error is the caught dispatch failure,
which skips the chunk), yield the batch, carry the summary forward, and
break once the budget is reached. -/
def passThree (chunkOutcome : Nat → Str → Except LLMError (List GeneratedCard × Str))
    (totalChunks maxCards : Nat) :
    List DocumentChunk → Nat → Str → Nat → List StreamItem × Nat
  | [], _, _, total => ([], total)
  | chunk :: rest, i, prevSummary, total =>
    if total < maxCards then
      let ev : StreamItem := .progress
        { phase := .generating, currentChunk := some (i + 1)
          totalChunks := some totalChunks, cardsGenerated := total
          message := str "Generating cards for: " ++ chunk.heading }
      match chunkOutcome i prevSummary with
      | .ok (cards, summary) =>
        let batch : CardBatch :=
          { chunkId := chunk.id, heading := chunk.heading, cards := cards
            summary := summary, quality := calculateBatchQuality cards }
        let total' := total + cards.length
        if maxCards ≤ total' then ([ev, .batch batch], total')
        else
          let next := passThree chunkOutcome totalChunks maxCards rest (i + 1) summary total'
          (ev :: .batch batch :: next.1, next.2)
      | .error _ =>
        let next := passThree chunkOutcome totalChunks maxCards rest (i + 1) prevSummary total
        (ev :: next.1, next.2)
    else ([], total)

/-- `generateCardsMultiPass(content, options)`: the full stream a consumer
that keeps pulling observes, paired with the failure that ends the run
instead of the terminal `completed` event, if any.  `planOutcome` and
`chunkOutcome` abstract the network-dependent outcomes of pass 1 and of
each chunk of pass 3; nothing else in the run is abstracted.  Note that
`prioritizeChunks` sorts the chunk array in place, so `createOverview`
receives the sorted array. -/
def generateCardsMultiPass (imp : Str → Nat → ℚ) (kw : Str → List Str)
    (planOutcome : Except LLMError DocumentPlan)
    (chunkOutcome : Nat → Str → Except LLMError (List GeneratedCard × Str))
    (content : Str) (maxCardsOpt : Option Nat) :
    List StreamItem × Option RunFailure :=
  let maxCards := jsOrNat maxCardsOpt 50
  let planningEv : StreamItem := .progress
    { phase := .planning, currentChunk := none, totalChunks := none
      cardsGenerated := 0, message := str "Analyzing document structure..." }
  let _plan := analyzeDocument planOutcome
  let analyzingEv : StreamItem := .progress
    { phase := .analyzing, currentChunk := none, totalChunks := none
      cardsGenerated := 0, message := str "Breaking document into sections..." }
  let chunks := chunkDocument imp kw content { maxTokens := some 1500, minTokens := some 200 }
  let sorted := prioritizeChunks chunks
  match createOverview sorted with
  | none => ([planningEv, analyzingEv], some .rangeError)
  | some _overview =>
    let gen := passThree chunkOutcome sorted.length maxCards sorted 0 [] 0
    let completedEv : StreamItem := .progress
      { phase := .completed, currentChunk := none, totalChunks := none
        cardsGenerated := gen.2
        message := str "Generated " ++ (Nat.repr gen.2).toList ++ str " cards successfully!" }
    (planningEv :: analyzingEv :: gen.1 ++ [completedEv], none)

/-- A placeholder importance scorer for concrete evaluations (the real
scorer is a per-chunk annotation that never influences boundaries). -/
def constImportance : Str → Nat → ℚ := fun _ _ => 0

/-- A placeholder keyword extractor for concrete evaluations. -/
def noKeywords : Str → List Str := fun _ => []

/-- C2 exactly as the claim words it, as a decidable check: every
non-final chunk has at least `minTokens` estimated tokens, the final chunk
at least `minTokens / 2`, and empty input gives no chunks. -/
def claimedChunkBounds (imp : Str → Nat → ℚ) (kw : Str → List Str)
    (text : Str) (opts : ChunkingOptions) : Bool :=
  let minT := jsOrNat opts.minTokens 200
  let chunks := chunkDocument imp kw text opts
  chunks.dropLast.all (fun c => decide (minT ≤ c.tokenCount))
    && (match chunks.getLast? with
        | some c => decide (minT ≤ 2 * c.tokenCount)
        | none => true)
    && (if text.isEmpty then chunks.isEmpty else true)

/-- The document `"\na\n" ++ "x"*12` (lines `""`, `"a"`, `"xxxxxxxxxxxx"`). -/
def cexDoc1 : Str := '\n' :: 'a' :: '\n' :: List.replicate 12 'x'

/-- Options `maxTokens 3, minTokens 2` (0 < min ≤ max). -/
def cexOpts1 : ChunkingOptions := { maxTokens := some 3, minTokens := some 2 }

/-- Lines `""`, `""`, `"y"`, `"x"*12`, `"# H"`. -/
def cexDoc2 : Str :=
  '\n' :: '\n' :: 'y' :: '\n' :: (List.replicate 12 'x' ++ ('\n' :: '#' :: ' ' :: [ 'H' ]))

/-- Options `maxTokens 4, minTokens 4` (0 < min ≤ max). -/
def cexOpts2 : ChunkingOptions := { maxTokens := some 4, minTokens := some 4 }

/-- C3 exactly as the claim words it, as a decidable check: the
concatenated line sequences of the returned chunks form a prefix of the
input line sequence (so material is lost only as a trailing fragment). -/
def claimedChunkConcat (imp : Str → Nat → ℚ) (kw : Str → List Str)
    (text : Str) (opts : ChunkingOptions) : Bool :=
  ((chunkDocument imp kw text opts).flatMap (fun c => splitLines c.content)).isPrefixOf
    (splitLines text)

/-- Lines `"x"`, `"# H"`, `"y"*8`. -/
def cexDoc3 : Str := 'x' :: '\n' :: '#' :: ' ' :: 'H' :: '\n' :: List.replicate 8 'y'

/-- `SucceedsWith s name r`: the named candidate is registered, reports
available, and its retry loop returns `r`. -/
def SucceedsWith (s : LLMRouterState) (name : Str) (r : LLMResponse) : Prop :=
  ∃ p, lookupProvider s.providers name = some p ∧ p.available = true
    ∧ (generateWithRetry p.gen s.retryAttempts s.retryDelay).result = .ok r

/-- A retryable demo error. -/
def demoRetryableError : LLMError :=
  { message := str "Server error", type := .apiError, retryable := true, provider := none }

/-- A non-retryable demo error. -/
def demoFatalError : LLMError :=
  { message := str "Authentication failed", type := .authenticationError
    retryable := false, provider := none }

/-- A provider that always succeeds with `demoResponse`. -/
def demoResponse : LLMResponse :=
  { content := str "ok", usage := none, model := str "m", finishReason := str "stop" }

/-- The always-succeeding first provider of the witness. -/
def demoProviderOk : ProviderModel :=
  { available := true, gen := fun _ => .ok demoResponse }

/-- The second provider of the witness (it must never be invoked). -/
def demoProviderOther : ProviderModel :=
  { available := true, gen := fun _ => .error (.llm demoRetryableError) }

/-- A two-provider router: `p1` default, `p2` fallback. -/
def demoRouter : LLMRouterState :=
  { providers := [(str "p1", demoProviderOk), (str "p2", demoProviderOther)]
    defaultProvider := some (str "p1")
    fallbackProviders := [str "p2"]
    retryAttempts := 3, retryDelay := 1000 }

/-- C7 exactly as the claim words it: arithmetic mean of the per-card
confidences, defaulting to 0.8 only for a card that does not specify one,
times the count penalty. -/
def claimedBatchQuality (cards : List GeneratedCard) : ℚ :=
  ((cards.map (fun c => c.confidence.getD 0.8)).sum / (cards.length : ℚ))
    * (if cards.length < 2 then 0.8 else if 10 < cards.length then 0.9 else 1.0)

/-- A card that explicitly specifies confidence 0. -/
def zeroConfCard : GeneratedCard :=
  { type := str "basic", front := [], back := [], tags := [], confidence := some 0 }

/-- C7 as amended: 0.8 is substituted for a card whose confidence is
unspecified or equal to 0 (JS `||` treats 0 as falsy). -/
def amendedBatchQuality (cards : List GeneratedCard) : ℚ :=
  ((cards.map (fun c =>
      if c.confidence = some 0 then 0.8 else c.confidence.getD 0.8)).sum
    / (cards.length : ℚ))
    * (if cards.length < 2 then 0.8 else if 10 < cards.length then 0.9 else 1.0)

/-- A second demo card, with an in-range confidence. -/
def demoCard : GeneratedCard :=
  { type := str "qa", front := str "f", back := str "b", tags := [], confidence := some 0.6 }

/-- The raw cards of a decoded payload (`parsed.cards || []`). -/
def rawCardsOf (input : Option RawCardResponse) : List RawCard :=
  match input with
  | none => []
  | some r => r.cards.getD []

/-- A raw card specifying an out-of-range confidence. -/
def overConfRaw : RawCard :=
  { type := none, front := none, back := none, tags := none, confidence := some 2 }

/-- A 400-character document with no heading line: its only chunk keeps
the level-0 "Introduction" sentinel. -/
def headinglessDoc : Str := List.replicate 400 'a'

/-! ## Chunker invariants -/

/-- `x || d` is positive whenever the default is. -/
theorem jsOrNat_pos (o : Option Nat) (d : Nat) (hd : 0 < d) : 0 < jsOrNat o d := by
  cases o with
  | none => simpa [jsOrNat] using hd
  | some v =>
    by_cases hv : v = 0
    · simpa [jsOrNat, hv] using hd
    · simpa [jsOrNat, hv] using Nat.pos_of_ne_zero hv

/-- The blocks of the pieces the chunk loop produces partition the pending
buffer followed by the remaining lines. -/
theorem chunkLoop_flatMap_block (imp : Str → Nat → ℚ) (kw : Str → List Str)
    (maxT minT nTotal : Nat) :
    ∀ (lines : List Str) (i : Nat) (st : ChunkState),
      (chunkLoop imp kw maxT minT nTotal lines i st).flatMap ChunkPiece.block
        = st.buffer ++ lines := by
  intro lines
  induction lines with
  | nil =>
    intro i st
    rw [chunkLoop]
    by_cases hb : st.buffer.isEmpty
    · simp [hb, List.isEmpty_iff.mp hb]
    · simp only [hb, Bool.false_eq_true, if_false]
      split
      · simp [ChunkPiece.block]
      · simp [ChunkPiece.block]
  | cons line rest ih =>
    intro i st
    rw [chunkLoop]
    cases hm : headingMatch line with
    | none =>
      simp only
      split
      · split
        · simp only [List.flatMap_cons, ih, ChunkPiece.block]
          rw [← List.append_assoc, List.take_append_drop]
          simp
        · rw [ih]; simp
      · rw [ih]; simp
    | some pair =>
      obtain ⟨lvl, title⟩ := pair
      simp only
      by_cases hb : st.buffer.isEmpty
      · rw [if_pos hb, ih]
        simp [List.isEmpty_iff.mp hb]
      · rw [if_neg hb]
        split
        · simp only [List.flatMap_cons, ih, ChunkPiece.block]
          simp
        · simp only [List.flatMap_cons, ih, ChunkPiece.block]
          simp

/-- Every piece the chunk loop produces respects the emit/discard
thresholds of its branch: a heading flush carries at least `minTokens`,
the final flush at least `minTokens / 2`, and the discarded buffers are
exactly the ones below those thresholds. -/
theorem chunkLoop_guards (imp : Str → Nat → ℚ) (kw : Str → List Str)
    (maxT minT nTotal : Nat) :
    ∀ (lines : List Str) (i : Nat) (st : ChunkState) (p : ChunkPiece),
      p ∈ chunkLoop imp kw maxT minT nTotal lines i st →
        (∀ b c, p = .emitted .headingFlush b c → minT ≤ c.tokenCount)
        ∧ (∀ b c, p = .emitted .finalFlush b c → minT ≤ 2 * c.tokenCount)
        ∧ (∀ b, p = .droppedAtHeading b → estimateTokens (joinLines b) < minT)
        ∧ (∀ b, p = .droppedAtEnd b → 2 * estimateTokens (joinLines b) < minT) := by
  intro lines
  induction lines with
  | nil =>
    intro i st p hp
    rw [chunkLoop] at hp
    by_cases hb : st.buffer.isEmpty
    · simp [hb] at hp
    · simp only [hb, Bool.false_eq_true, if_false] at hp
      split at hp
      · next hth =>
        simp only [List.mem_singleton] at hp
        subst hp
        refine ⟨by simp, ?_, by simp, by simp⟩
        intro b c hbc
        cases hbc
        simpa [mkChunk] using hth
      · next hth =>
        simp only [List.mem_singleton] at hp
        subst hp
        exact ⟨by simp, by simp, by simp, fun b hb' => by cases hb'; omega⟩
  | cons line rest ih =>
    intro i st p hp
    rw [chunkLoop] at hp
    cases hm : headingMatch line with
    | none =>
      rw [hm] at hp
      simp only at hp
      split at hp
      · split at hp
        · rcases List.mem_cons.mp hp with h | h
          · subst h
            refine ⟨?_, by simp, by simp, by simp⟩
            intro b c hbc
            cases hbc
          · exact ih _ _ _ h
        · exact ih _ _ _ hp
      · exact ih _ _ _ hp
    | some pair =>
      obtain ⟨lvl, title⟩ := pair
      rw [hm] at hp
      simp only at hp
      by_cases hb : st.buffer.isEmpty
      · rw [if_pos hb] at hp
        exact ih _ _ _ hp
      · rw [if_neg hb] at hp
        split at hp
        · next hth =>
          rcases List.mem_cons.mp hp with h | h
          · subst h
            refine ⟨?_, by simp, by simp, by simp⟩
            intro b c hbc
            cases hbc
            simpa [mkChunk] using hth
          · exact ih _ _ _ h
        · next hth =>
          rcases List.mem_cons.mp hp with h | h
          · subst h
            exact ⟨by simp, by simp, fun b hb' => by cases hb'; omega, by simp⟩
          · exact ih _ _ _ h

/-- On empty input the chunker returns no chunks: the lone empty line
estimates to 0 tokens, below the relaxed final threshold. -/
theorem chunkDocument_nil (imp : Str → Nat → ℚ) (kw : Str → List Str)
    (opts : ChunkingOptions) : chunkDocument imp kw [] opts = [] := by
  have hmax := jsOrNat_pos opts.maxTokens 1500 (by norm_num)
  have hmin := jsOrNat_pos opts.minTokens 200 (by norm_num)
  have h1 : ¬ (jsOrNat opts.maxTokens 1500 = 0) := by omega
  have h2 : ¬ (jsOrNat opts.minTokens 200 = 0) := by omega
  simp [chunkDocument, chunkPieces, splitLines, chunkLoop, headingMatch, joinLines,
    List.intercalate, List.intersperse, estimateTokens, ChunkPiece.chunkOf,
    Nat.le_zero, h1, h2]

/-- C2, counterexample: on `cexDoc1` with `minTokens = 2 ≤ maxTokens = 3`
the mid-buffer split emits a non-final chunk of 1 estimated token
(below `minTokens`), and on `cexDoc2` with `minTokens = maxTokens = 4` the
returned final chunk has 1 estimated token (below `minTokens / 2`), so the
claimed bounds fail on both counts. -/
theorem claimedChunkBounds_false :
    claimedChunkBounds constImportance noKeywords cexDoc1 cexOpts1 = false
    ∧ claimedChunkBounds constImportance noKeywords cexDoc2 cexOpts2 = false := by
  constructor
  · decide
  · decide

/-- C2, amended: the `minTokens` lower bound holds for the chunks flushed
at heading boundaries, and the relaxed `minTokens / 2` bound for the chunk
flushed at end of input, while chunks emitted by the mid-buffer split have
no lower bound; empty input still yields an empty chunk list. -/
theorem chunk_token_bounds :
    (∀ (imp : Str → Nat → ℚ) (kw : Str → List Str) (text : Str)
        (opts : ChunkingOptions) (b : List Str) (c : DocumentChunk),
      ChunkPiece.emitted .headingFlush b c ∈ chunkPieces imp kw text opts →
        jsOrNat opts.minTokens 200 ≤ c.tokenCount)
    ∧ (∀ (imp : Str → Nat → ℚ) (kw : Str → List Str) (text : Str)
        (opts : ChunkingOptions) (b : List Str) (c : DocumentChunk),
      ChunkPiece.emitted .finalFlush b c ∈ chunkPieces imp kw text opts →
        jsOrNat opts.minTokens 200 ≤ 2 * c.tokenCount)
    ∧ (∀ (imp : Str → Nat → ℚ) (kw : Str → List Str) (opts : ChunkingOptions),
      chunkDocument imp kw [] opts = []) := by
  refine ⟨?_, ?_, fun imp kw opts => chunkDocument_nil imp kw opts⟩
  · intro imp kw text opts b c hmem
    rw [chunkPieces] at hmem
    exact (chunkLoop_guards imp kw _ _ _ _ _ _ _ hmem).1 b c rfl
  · intro imp kw text opts b c hmem
    rw [chunkPieces] at hmem
    exact (chunkLoop_guards imp kw _ _ _ _ _ _ _ hmem).2.1 b c rfl

/-- C3, counterexample: on `cexDoc3` with `minTokens 2, maxTokens 3` the
line `"x"` sits in an undersized buffer when the heading `# H` is reached;
the code discards it (it is not merged forward), so the chunks reproduce
only `["# H", "yyyyyyyy"]` and interior material is lost. -/
theorem claimedChunkConcat_false :
    claimedChunkConcat constImportance noKeywords cexDoc3 cexOpts1 = false := by
  decide

/-- C3, amended: the emitted chunks' blocks and the discarded buffers
interleave to exactly the input line sequence — so concatenating the chunk
contents reproduces the input except for the discarded buffers — and a
buffer is discarded exactly when it is undersized, either at a heading
boundary (below `minTokens`; it is dropped there, not merged forward) or
at end of input (below `minTokens / 2`). -/
theorem chunk_concat_partition :
    (∀ (imp : Str → Nat → ℚ) (kw : Str → List Str) (text : Str)
        (opts : ChunkingOptions),
      (chunkPieces imp kw text opts).flatMap ChunkPiece.block = splitLines text)
    ∧ (∀ (imp : Str → Nat → ℚ) (kw : Str → List Str) (text : Str)
        (opts : ChunkingOptions) (b : List Str),
      ChunkPiece.droppedAtHeading b ∈ chunkPieces imp kw text opts →
        estimateTokens (joinLines b) < jsOrNat opts.minTokens 200)
    ∧ (∀ (imp : Str → Nat → ℚ) (kw : Str → List Str) (text : Str)
        (opts : ChunkingOptions) (b : List Str),
      ChunkPiece.droppedAtEnd b ∈ chunkPieces imp kw text opts →
        2 * estimateTokens (joinLines b) < jsOrNat opts.minTokens 200) := by
  refine ⟨?_, ?_, ?_⟩
  · intro imp kw text opts
    rw [chunkPieces]
    simpa using chunkLoop_flatMap_block imp kw _ _ _ (splitLines text) 0 _
  · intro imp kw text opts b hmem
    rw [chunkPieces] at hmem
    exact (chunkLoop_guards imp kw _ _ _ _ _ _ _ hmem).2.2.1 b rfl
  · intro imp kw text opts b hmem
    rw [chunkPieces] at hmem
    exact (chunkLoop_guards imp kw _ _ _ _ _ _ _ hmem).2.2.2 b rfl

/-- C10: `findSplitPoint` returns 0 on a one-line buffer (both backward
searches cover no indices and `floor(1 * 0.75) = 0`), so an overlong
single line is never split: on a single 13-character line with
`maxTokens 3` the returned chunk has 4 estimated tokens, exceeding
`maxTokens`. -/
theorem findSplitPoint_single_overlong :
    (∀ l : Str, findSplitPoint [l] = 0)
    ∧ (chunkDocument constImportance noKeywords (List.replicate 13 'x')
        cexOpts1).map DocumentChunk.tokenCount = [4]
    ∧ jsOrNat cexOpts1.maxTokens 1500 < 4 := by
  refine ⟨?_, by decide, by decide⟩
  intro l
  simp [findSplitPoint, descIndices, List.range_succ]

/-! ## Retry and fallback -/

/-- A provider that always throws the same retryable error makes the loop
run all its attempts: `k` calls from attempt index `idx`, waiting
`retryDelay * 2^attempt` between consecutive attempts, and ends by
rethrowing that error. -/
theorem retryAux_const_retryable (e : LLMError) (he : e.retryable = true) (rd : Nat) :
    ∀ (k idx : Nat) (last : Option ThrownError), 1 ≤ k →
      retryAux (fun _ => .error (.llm e)) rd k idx last =
        { result := .error (some (.llm e)), calls := k
          delays := (List.range (k - 1)).map (fun j => rd * 2 ^ (idx + j)) } := by
  intro k
  induction k with
  | zero => intro idx last h; omega
  | succ n ih =>
    intro idx last _
    rw [retryAux]
    simp only [he, if_true]
    cases n with
    | zero => simp [retryAux]
    | succ m =>
      rw [ih (idx + 1) (some (.llm e)) (by omega)]
      have hmap : (List.range (m + 1)).map (fun j => rd * 2 ^ (idx + j))
          = rd * 2 ^ idx :: (List.range m).map (fun j => rd * 2 ^ (idx + 1 + j)) := by
        rw [List.range_succ_eq_map, List.map_cons, List.map_map]
        refine congrArg₂ _ (by simp) (List.map_congr_left fun j _ => ?_)
        simp only [Function.comp_apply]
        have h : idx + (j + 1) = idx + 1 + j := by omega
        rw [h]
      simp only [hmap]
      simp
      exact ⟨by omega, hmap.symm⟩

/-- With at least one attempt configured, the retry loop never throws the
`null` it starts from. -/
theorem retryAux_result_ne_none (gen : Nat → Except ThrownError LLMResponse) (rd : Nat) :
    ∀ (k idx : Nat) (last : Option ThrownError), 1 ≤ k →
      (retryAux gen rd k idx last).result ≠ .error none := by
  intro k
  induction k with
  | zero => intro idx last h; omega
  | succ n ih =>
    intro idx last _
    rw [retryAux]
    cases hg : gen idx with
    | ok r => simp
    | error e =>
      cases e with
      | llm le =>
        by_cases hr : le.retryable
        · simp only [hr, if_true]
          cases n with
          | zero => simp [retryAux]
          | succ m => exact ih (idx + 1) (some (.llm le)) (by omega)
        · simp [hr]
      | foreign m => simp

/-- The candidate loop returns the first success and never goes past it. -/
theorem genLoop_first_success (s : LLMRouterState) (hra : 1 ≤ s.retryAttempts)
    (r : LLMResponse) :
    ∀ (k : Nat) (names : List Str) (last : Option LLMError) (nm : Str),
      names.get? k = some nm → SucceedsWith s nm r →
      (∀ m ∈ names.take k, ∀ r', ¬ SucceedsWith s m r') →
      (genLoop s names last).result = .ok r
        ∧ ∀ m ∈ (genLoop s names last).touched, m ∈ names.take (k + 1) := by
  intro k
  induction k with
  | zero =>
    intro names last nm hget hsucc _
    cases names with
    | nil => simp at hget
    | cons a rest =>
      simp only [List.get?_cons_zero, Option.some.injEq] at hget
      subst hget
      obtain ⟨p, hp, hav, hres⟩ := hsucc
      rw [genLoop, hp]
      simp only [hav, if_true, hres]
      exact ⟨by simp, by simp⟩
  | succ j ih =>
    intro names last nm hget hsucc hfail
    cases names with
    | nil => simp at hget
    | cons a rest =>
      simp only [List.get?_cons_succ] at hget
      have hfa : ∀ r', ¬ SucceedsWith s a r' := fun r' =>
        hfail a (by simp [List.take_succ_cons]) r'
      have hrest : ∀ m ∈ rest.take j, ∀ r', ¬ SucceedsWith s m r' := fun m hm r' =>
        hfail m (by simp [List.take_succ_cons, hm]) r'
      rw [genLoop]
      cases hp : lookupProvider s.providers a with
      | none =>
        obtain ⟨h1, h2⟩ := ih rest last nm hget hsucc hrest
        exact ⟨h1, fun m hm => by simp [List.take_succ_cons]; right; exact h2 m hm⟩
      | some p =>
        by_cases hav : p.available
        · simp only [hav, if_true]
          cases hres : (generateWithRetry p.gen s.retryAttempts s.retryDelay).result with
          | ok r2 => exact absurd ⟨p, hp, by simpa using hav, hres⟩ (hfa r2)
          | error oe =>
            cases oe with
            | none =>
              exact absurd hres (retryAux_result_ne_none p.gen s.retryDelay _ 0 none hra)
            | some te =>
              cases te with
              | llm e2 =>
                obtain ⟨h1, h2⟩ := ih rest (some e2) nm hget hsucc hrest
                refine ⟨h1, fun m hm => ?_⟩
                simp only [List.take_succ_cons, List.mem_cons]
                rcases List.mem_cons.mp hm with h | h
                · exact Or.inl h
                · exact Or.inr (h2 m h)
              | foreign msg =>
                obtain ⟨h1, h2⟩ := ih rest (some (wrapForeign a msg)) nm hget hsucc hrest
                refine ⟨h1, fun m hm => ?_⟩
                simp only [List.take_succ_cons, List.mem_cons]
                rcases List.mem_cons.mp hm with h | h
                · exact Or.inl h
                · exact Or.inr (h2 m h)
        · simp only [hav, if_false]
          obtain ⟨h1, h2⟩ := ih rest (some (unavailableError a)) nm hget hsucc hrest
          refine ⟨h1, fun m hm => ?_⟩
          simp only [List.take_succ_cons, List.mem_cons]
          rcases List.mem_cons.mp hm with h | h
          · exact Or.inl h
          · exact Or.inr (h2 m h)

/-- C4: a provider whose `generateCompletion` always throws a retryable
`LLMError` is called exactly `retryAttempts` times, with a wait of
`retryDelay * 2^i` after the i-th failed attempt for `i < retryAttempts - 1`,
and the loop then rethrows the last error to the provider loop; a
non-retryable `LLMError` ends the attempts after exactly one call. -/
theorem retry_policy (e : LLMError) (he : e.retryable = true)
    (en : LLMError) (hn : en.retryable = false)
    (ra rd : Nat) (hra : 1 ≤ ra) :
    ((generateWithRetry (fun _ => .error (.llm e)) ra rd).calls = ra
      ∧ (generateWithRetry (fun _ => .error (.llm e)) ra rd).delays
          = (List.range (ra - 1)).map (fun i => rd * 2 ^ i)
      ∧ (generateWithRetry (fun _ => .error (.llm e)) ra rd).result
          = .error (some (.llm e)))
    ∧ ((generateWithRetry (fun _ => .error (.llm en)) ra rd).calls = 1
      ∧ (generateWithRetry (fun _ => .error (.llm en)) ra rd).result
          = .error (some (.llm en))) := by
  constructor
  · rw [generateWithRetry, retryAux_const_retryable e he rd ra 0 none hra]
    refine ⟨rfl, ?_, rfl⟩
    simp
  · obtain ⟨m, rfl⟩ : ∃ m, ra = m + 1 := ⟨ra - 1, by omega⟩
    rw [generateWithRetry, retryAux]
    simp [hn]

/-- C4 witness: with the default configuration (3 attempts, 1000 ms base
delay) the retryable provider is called 3 times with waits 1000 and 2000,
and the non-retryable one once. -/
theorem retry_policy_witness :
    ((generateWithRetry (fun _ => .error (.llm demoRetryableError)) 3 1000).calls = 3
      ∧ (generateWithRetry (fun _ => .error (.llm demoRetryableError)) 3 1000).delays
          = (List.range (3 - 1)).map (fun i => 1000 * 2 ^ i)
      ∧ (generateWithRetry (fun _ => .error (.llm demoRetryableError)) 3 1000).result
          = .error (some (.llm demoRetryableError)))
    ∧ ((generateWithRetry (fun _ => .error (.llm demoFatalError)) 3 1000).calls = 1
      ∧ (generateWithRetry (fun _ => .error (.llm demoFatalError)) 3 1000).result
          = .error (some (.llm demoFatalError))) :=
  retry_policy demoRetryableError rfl demoFatalError rfl 3 1000 (by norm_num)

/-- C5: whenever the k-th candidate of the attempt chain succeeds and no
earlier candidate does, `generate` returns that candidate's response, and
no provider after position k in the chain is ever invoked (the loop never
reaches it). -/
theorem generate_first_success (s : LLMRouterState) (pref : Option Str)
    (k : Nat) (nm : Str) (r : LLMResponse)
    (hra : 1 ≤ s.retryAttempts)
    (hk : (buildProviderChain s pref).get? k = some nm)
    (hs : SucceedsWith s nm r)
    (hfail : ∀ m ∈ (buildProviderChain s pref).take k, ∀ r2, ¬ SucceedsWith s m r2) :
    (generate s pref).result = .ok r
      ∧ ∀ m ∈ (generate s pref).touched, m ∈ (buildProviderChain s pref).take (k + 1) := by
  have hne : (buildProviderChain s pref).isEmpty = false := by
    cases hcc : buildProviderChain s pref with
    | nil => rw [hcc] at hk; simp at hk
    | cons a rest => simp
  rw [generate]
  simp only [hne, Bool.false_eq_true, if_false]
  exact genLoop_first_success s hra r k (buildProviderChain s pref) none nm hk hs hfail

/-- C5 witness: with two registered providers where the first succeeds,
`generate` returns the first provider's response and the second is never
invoked (everything touched lies in the one-element prefix of the chain). -/
theorem generate_first_success_witness :
    (generate demoRouter none).result = .ok demoResponse
      ∧ ∀ m ∈ (generate demoRouter none).touched,
          m ∈ (buildProviderChain demoRouter none).take 1 :=
  generate_first_success demoRouter none 0 (str "p1") demoResponse
    (by decide)
    (by decide)
    ⟨demoProviderOk, rfl, rfl, rfl⟩
    (by simp)


/-! ## Provider error classification -/

/-- C6: the classification of the error raised by one
`generateCompletion` call, per HTTP outcome: 401/403 authentication-error
non-retryable; 429 rate-limited retryable; 500+ api-error retryable; any
other non-2xx api-error non-retryable; a 200 body lacking
`choices[0].message` parse-error non-retryable; a connection failure
network-error retryable. -/
theorem generateCompletion_error_classification :
    (∀ (cfg : ProviderConfig) (data : ResponsePayload) (st : Nat),
      st = 401 ∨ st = 403 →
        ∃ e, generateCompletionOutcome cfg (.response st data) = .error e
          ∧ e.type = .authenticationError ∧ e.retryable = false)
    ∧ (∀ (cfg : ProviderConfig) (data : ResponsePayload),
        ∃ e, generateCompletionOutcome cfg (.response 429 data) = .error e
          ∧ e.type = .rateLimit ∧ e.retryable = true)
    ∧ (∀ (cfg : ProviderConfig) (data : ResponsePayload) (st : Nat), 500 ≤ st →
        ∃ e, generateCompletionOutcome cfg (.response st data) = .error e
          ∧ e.type = .apiError ∧ e.retryable = true)
    ∧ (∀ (cfg : ProviderConfig) (data : ResponsePayload) (st : Nat),
        (st < 200 ∨ 300 ≤ st) → st ≠ 401 → st ≠ 403 → st ≠ 429 → st < 500 →
        ∃ e, generateCompletionOutcome cfg (.response st data) = .error e
          ∧ e.type = .apiError ∧ e.retryable = false)
    ∧ (∀ (cfg : ProviderConfig) (data : ResponsePayload),
        (data.choices = none ∨ data.choices = some []
          ∨ (∃ ch rest, data.choices = some (ch :: rest) ∧ ch.message = none)) →
        ∃ e, generateCompletionOutcome cfg (.response 200 data) = .error e
          ∧ e.type = .parseError ∧ e.retryable = false)
    ∧ (∀ (cfg : ProviderConfig) (m : Str),
        ∃ e, generateCompletionOutcome cfg (.connectionFailure m) = .error e
          ∧ e.type = .networkError ∧ e.retryable = true) := by
  refine ⟨?_, ?_, ?_, ?_, ?_, ?_⟩
  · intro cfg data st h
    rw [generateCompletionOutcome]
    split_ifs with h1 _h2 _h3 _h4 <;> first
      | exact ⟨_, rfl, rfl, rfl⟩
      | omega
  · intro cfg data
    rw [generateCompletionOutcome]
    norm_num
  · intro cfg data st h
    rw [generateCompletionOutcome]
    split_ifs with h1 h2 h3 _h4 <;> first
      | exact ⟨_, rfl, rfl, rfl⟩
      | omega
  · intro cfg data st h h1 h2 h3 h4
    rw [generateCompletionOutcome]
    split_ifs with g1 g2 g3 _g4 <;> first
      | exact ⟨_, rfl, rfl, rfl⟩
      | omega
  · intro cfg data h
    rw [generateCompletionOutcome]
    norm_num
    rcases h with h | h | ⟨ch, rest, h, hm⟩
    · rw [parseResponse, h]
      exact ⟨_, rfl, rfl, rfl⟩
    · rw [parseResponse, h]
      exact ⟨_, rfl, rfl, rfl⟩
    · rw [parseResponse, h]
      dsimp only
      rw [hm]
      exact ⟨_, rfl, rfl, rfl⟩
  · intro cfg m
    rw [generateCompletionOutcome]
    exact ⟨_, rfl, rfl, rfl⟩

/-! ## Batch quality -/

/-- C7, counterexample: for the one-card batch whose card specifies
confidence 0, the code computes 0.8 × 0.8 = 0.64 (the `||` default also
fires on the falsy 0), while the claimed formula gives 0 × 0.8 = 0. -/
theorem batch_quality_cex :
    calculateBatchQuality [zeroConfCard] = 16 / 25
    ∧ claimedBatchQuality [zeroConfCard] = 0
    ∧ (16 / 25 : ℚ) ≠ 0 := by
  refine ⟨?_, ?_, by norm_num⟩
  · norm_num [calculateBatchQuality, jsConfidenceOr, zeroConfCard]
  · norm_num [claimedBatchQuality, zeroConfCard]

/-- The running sum of the `reduce` equals the sum of the mapped list. -/
theorem foldl_confidence_sum :
    ∀ (l : List GeneratedCard) (a : ℚ),
      l.foldl (fun sum card => sum + jsConfidenceOr card.confidence) a
        = a + (l.map (fun c => jsConfidenceOr c.confidence)).sum := by
  intro l
  induction l with
  | nil => intro a; simp
  | cons c cs ih => intro a; simp [ih, add_assoc]

/-- C7, amended: for a non-empty batch the quality equals the mean of the
per-card confidences — with 0.8 substituted when a card's confidence is
unspecified or 0 — times the count penalty. -/
theorem batch_quality_formula (cards : List GeneratedCard) (h : cards ≠ []) :
    calculateBatchQuality cards = amendedBatchQuality cards := by
  rw [calculateBatchQuality, amendedBatchQuality]
  rw [if_neg (by simpa using h)]
  rw [foldl_confidence_sum cards 0, zero_add]
  have hmap : cards.map (fun c => jsConfidenceOr c.confidence)
      = cards.map (fun c => if c.confidence = some 0 then (0.8 : ℚ) else c.confidence.getD 0.8) := by
    refine List.map_congr_left fun c _ => ?_
    cases hc : c.confidence with
    | none => simp [jsConfidenceOr]
    | some v =>
      by_cases hv : v = 0
      · simp [jsConfidenceOr, hv]
      · simp [jsConfidenceOr, hv]
  rw [hmap]

/-- C7 witness: the amended formula evaluated on a concrete two-card batch. -/
theorem batch_quality_formula_witness :
    calculateBatchQuality [zeroConfCard, demoCard]
      = amendedBatchQuality [zeroConfCard, demoCard] :=
  batch_quality_formula [zeroConfCard, demoCard] (by simp)

/-! ## Prompt rendering -/

/-- C8: `renderPrompt` returns exactly a system message carrying the
template's system prompt and a user message carrying the user template
with the provided variables substituted, and it fails exactly when the
template name is unknown or a required variable is absent. -/
theorem renderPrompt_contract :
    (∀ (ts : List (Str × PromptTemplate)) (name : Str) (vars : List (Str × Str))
        (t : PromptTemplate),
      lookupTemplate ts name = some t →
      t.requiredVariables.all (fun v => (lookupVar vars v).isSome) = true →
      renderPrompt ts name vars
        = .ok [ { role := .system, content := t.systemPrompt },
                { role := .user, content := substituteVars t.userPromptTemplate vars } ])
    ∧ (∀ (ts : List (Str × PromptTemplate)) (name : Str) (vars : List (Str × Str)),
      lookupTemplate ts name = none → ∃ m, renderPrompt ts name vars = .error m)
    ∧ (∀ (ts : List (Str × PromptTemplate)) (name : Str) (vars : List (Str × Str))
        (t : PromptTemplate) (v : Str),
      lookupTemplate ts name = some t → v ∈ t.requiredVariables →
      lookupVar vars v = none → ∃ m, renderPrompt ts name vars = .error m) := by
  refine ⟨?_, ?_, ?_⟩
  · intro ts name vars t hlook hall
    have hfind : t.requiredVariables.find? (fun v => (lookupVar vars v).isNone) = none := by
      rw [List.find?_eq_none]
      intro v hv
      have h2 := List.all_eq_true.mp hall v hv
      cases hvv : lookupVar vars v with
      | none => rw [hvv] at h2; simp at h2
      | some w => simp [hvv]
    simp only [renderPrompt, hlook, hfind]
  · intro ts name vars h
    simp only [renderPrompt, h]
    exact ⟨_, rfl⟩
  · intro ts name vars t v hlook hv hnone
    cases hf : t.requiredVariables.find? (fun v => (lookupVar vars v).isNone) with
    | some w =>
      refine ⟨str "Missing required variable: " ++ w, ?_⟩
      simp only [renderPrompt, hlook, hf]
    | none =>
      exfalso
      have := List.find?_eq_none.mp hf v hv
      rw [hnone] at this
      simp at this

/-! ## Score ranges -/

/-- C9, counterexample: the card-response parser does not clamp
`confidence`: a raw card specifying confidence 2 yields a parsed card
carrying confidence 2, which is greater than 1, so the parsed confidences
do not all lie in [0,1]. -/
theorem parser_unclamped_cex :
    ((parseCardResponse (some { cards := some [overConfRaw], sectionSummary := none })).1.map
        (fun c => c.confidence)) = [some 2]
    ∧ (1 : ℚ) < 2 := by
  exact ⟨rfl, by norm_num⟩

/-- C9, amended: for heading levels 0..6 every importance score lies in
[0,1] (the base 0.5 and nonnegative bonuses are clamped above by 1), and
the card parser keeps every confidence in [0,1] whenever the specified raw
confidences are — the default for an unspecified one is 0.8 — but it does
not clamp an out-of-range specified confidence. -/
theorem importance_and_confidence_ranges :
    (∀ (sig : ContentSignals) (level : Nat), level ≤ 6 →
      0 ≤ calculateImportance sig level ∧ calculateImportance sig level ≤ 1)
    ∧ (∀ (input : Option RawCardResponse),
      (∀ raw ∈ rawCardsOf input, ∀ c : ℚ, raw.confidence = some c → 0 ≤ c ∧ c ≤ 1) →
      ∀ card ∈ (parseCardResponse input).1, ∀ c : ℚ,
        card.confidence = some c → 0 ≤ c ∧ c ≤ 1) := by
  constructor
  · intro sig level hlev
    rw [calculateImportance]
    have h6 : (level : ℚ) ≤ 6 := by exact_mod_cast hlev
    have h1 : 0 ≤ ((6 : ℚ) - (level : ℚ)) * 0.05 := mul_nonneg (by linarith) (by norm_num)
    have h2 : 0 ≤ (if sig.hasDefinition then (0.15 : ℚ) else 0) := by split <;> norm_num
    have h3 : 0 ≤ (if sig.hasList then (0.1 : ℚ) else 0) := by split <;> norm_num
    have h4 : 0 ≤ (if sig.hasCodeBlock then (0.1 : ℚ) else 0) := by split <;> norm_num
    have h5 : 0 ≤ min ((sig.emphasisCount : ℚ) * 0.02) 0.1 :=
      le_min (by positivity) (by norm_num)
    have h7 : 0 ≤ (keywordHitCount sig : ℚ) * 0.05 := by positivity
    constructor
    · apply le_min
      · linarith
      · norm_num
    · exact le_trans (min_le_right _ _) (by norm_num)
  · intro input hin card hcard c hc
    cases input with
    | none => simp [parseCardResponse] at hcard
    | some r =>
      simp only [parseCardResponse, List.mem_map] at hcard
      obtain ⟨raw, hraw, rfl⟩ := hcard
      simp only [parsedCard, Option.some.injEq] at hc
      cases hrc : raw.confidence with
      | none =>
        rw [hrc] at hc
        simp at hc
        subst hc
        norm_num
      | some v =>
        rw [hrc] at hc
        simp at hc
        subst hc
        exact hin raw (by simpa [rawCardsOf] using hraw) v hrc

/-! ## The multi-pass run -/

/-- C1: on a headingless document the started run dies before generating
anything — whatever the plan outcome, the per-chunk outcomes and the card
budget — because `createOverview` computes `'  '.repeat(0 - 1)` for the
level-0 chunk and the RangeError escapes the generator; the stream ends
after the `planning` and `analyzing` events and the terminal `completed`
event is never emitted. -/
theorem multi_pass_dies_on_headingless_doc :
    ∀ (imp : Str → Nat → ℚ) (kw : Str → List Str)
      (planOutcome : Except LLMError DocumentPlan)
      (chunkOutcome : Nat → Str → Except LLMError (List GeneratedCard × Str))
      (maxCardsOpt : Option Nat),
      generateCardsMultiPass imp kw planOutcome chunkOutcome headinglessDoc maxCardsOpt
        = ([.progress { phase := .planning, currentChunk := none, totalChunks := none,
                        cardsGenerated := 0,
                        message := str "Analyzing document structure..." },
            .progress { phase := .analyzing, currentChunk := none, totalChunks := none,
                        cardsGenerated := 0,
                        message := str "Breaking document into sections..." }],
           some .rangeError) := by
  intro imp kw planOutcome chunkOutcome maxCardsOpt
  rfl

end Anki